import Mathlib

/-!
Shallow embedding of the malaria-classification notebook
(`src/notebooks/DenseNet.ipynb`): annotation flattening, dataset
splitting and sampling weights, the crop pipeline of
`MalariaDataset.__getitem__`, and the evaluation reporting, together
with theorems settling the specification's claims about them.

Python integers are `Int`/`Nat`; the float ratios of `split_dataset`
are modelled as exact rationals (`ℚ`), with Python's `int()` of a
non-negative value being `Nat.floor`; Python dictionary access that can
raise `KeyError` is modelled by `Option` fields plus `Except`.
-/

namespace Malaria

/-- Python-level errors that the notebook's data path can raise. -/
inductive PyError
  | keyError
  | fileNotFoundError
  | indexError
deriving DecidableEq

/-- Bounding box `[x, y, w, h]` as built in the notebook:
`bbox = [int(obj['bbox']['x']), int(obj['bbox']['y']), int(obj['bbox']['w']), int(obj['bbox']['h'])]`. -/
structure BBox where
  x : Int
  y : Int
  w : Int
  h : Int
deriving DecidableEq

/-- A flattened record `{'image': img_name, 'label': label, 'bbox': bbox}`. -/
structure Record where
  image : String
  label : String
  bbox : BBox
deriving DecidableEq

/-- Raw bounding-box dictionary of an object annotation; an `Option`
field is `none` when the Python dict lacks that key. -/
structure RawBBox where
  x : Option Int
  y : Option Int
  w : Option Int
  h : Option Int

/-- Raw object dictionary: `obj['type']`, `obj['bbox']`. -/
structure RawObject where
  type : Option String
  bbox : Option RawBBox

/-- Raw annotation entry: `entry['image_name']`, `entry['objects']`. -/
structure RawEntry where
  image_name : Option String
  objects : Option (List RawObject)

/-- Python dictionary access `d[k]`: raises `KeyError` when the key is
absent. -/
def getKey : Option α → Except PyError α
  | some a => .ok a
  | none => .error .keyError

/-- Body of the inner loop of the flattening cell: builds one record
from `img_name` and `obj`, reading `obj['type']` and the four
`obj['bbox']` coordinates. -/
def objRecord (imgName : String) (obj : RawObject) : Except PyError Record := do
  let label ← getKey obj.type
  let bb ← getKey obj.bbox
  let bx ← getKey bb.x
  let by0 ← getKey bb.y
  let bw ← getKey bb.w
  let bh ← getKey bb.h
  .ok { image := imgName, label := label, bbox := ⟨bx, by0, bw, bh⟩ }

/-- Inner loop `for obj in entry['objects']`, appending one record per
object in order. -/
def objsRecords (imgName : String) : List RawObject → Except PyError (List Record)
  | [] => .ok []
  | obj :: rest => do
    let r ← objRecord imgName obj
    let rs ← objsRecords imgName rest
    .ok (r :: rs)

/-- The flattening cell: `for entry in annotations: ... dataset_records.append(...)`.
Records of earlier entries precede those of later entries; a missing
required key raises `KeyError` at the point it is read. -/
def dataset_records : List RawEntry → Except PyError (List Record)
  | [] => .ok []
  | entry :: rest => do
    let imgName ← getKey entry.image_name
    let objs ← getKey entry.objects
    let rs ← objsRecords imgName objs
    let restRecs ← dataset_records rest
    .ok (rs ++ restRecs)

/-- A well-formed object annotation (all required keys present), used to
state the flattener's behaviour on well-formed inputs. -/
structure WFObject where
  type : String
  x : Int
  y : Int
  w : Int
  h : Int

/-- A well-formed annotation entry. -/
structure WFEntry where
  image_name : String
  objects : List WFObject

/-- Embed a well-formed object back into the raw dictionary shape. -/
def WFObject.toRaw (o : WFObject) : RawObject :=
  { type := some o.type, bbox := some ⟨some o.x, some o.y, some o.w, some o.h⟩ }

/-- Embed a well-formed entry back into the raw dictionary shape. -/
def WFEntry.toRaw (e : WFEntry) : RawEntry :=
  { image_name := some e.image_name, objects := some (e.objects.map WFObject.toRaw) }

/-- The record a given well-formed (entry, object) pair flattens to. -/
def WFObject.toRecord (imgName : String) (o : WFObject) : Record :=
  { image := imgName, label := o.type, bbox := ⟨o.x, o.y, o.w, o.h⟩ }

/-- Written to the spec's words, for comparison with `dataset_records`:
"output is a sequence of Record, one per ObjectAnnotation, preserving
source order". -/
def specFlatten (entries : List WFEntry) : List Record :=
  entries.flatMap (fun e => e.objects.map (WFObject.toRecord e.image_name))

/-- Does a raw entry have every required key? (`image_name`, `objects`,
and for each object `type` and the four `bbox` coordinates.) -/
def RawObject.wellFormed (o : RawObject) : Bool :=
  o.type.isSome && match o.bbox with
    | none => false
    | some b => b.x.isSome && b.y.isSome && b.w.isSome && b.h.isSome

/-- Well-formedness of a raw entry. -/
def RawEntry.wellFormed (e : RawEntry) : Bool :=
  e.image_name.isSome && match e.objects with
    | none => false
    | some objs => objs.all RawObject.wellFormed

theorem objsRecords_toRaw (imgName : String) (objs : List WFObject) :
    objsRecords imgName (objs.map WFObject.toRaw) =
      .ok (objs.map (WFObject.toRecord imgName)) := by
  induction objs with
  | nil => rfl
  | cons o rest ih =>
    simp [objsRecords, objRecord, WFObject.toRaw, getKey, ih, WFObject.toRecord,
      Bind.bind, Except.bind]

theorem dataset_records_toRaw (entries : List WFEntry) :
    dataset_records (entries.map WFEntry.toRaw) = .ok (specFlatten entries) := by
  induction entries with
  | nil => rfl
  | cons e rest ih =>
    simp [dataset_records, WFEntry.toRaw, getKey, objsRecords_toRaw, ih,
      specFlatten, Bind.bind, Except.bind]

/-!
### Splitter / Sampler

`split_dataset` calls `random.shuffle(records)` which permutes the
caller's list **in place** using the process-wide generator seeded once
by `random.seed(42)`.  The stdlib generator (Mersenne Twister) is not
part of this repository; modelled from the spec: "shuffles records
using a seeded deterministic pseudo-random permutation" — the generator
is a deterministic linear congruential generator whose state we thread
explicitly, in place of Python's hidden global state.
-/

/-- Modelled from the spec: one step of the process-wide pseudo-random
generator, as a linear congruential generator on a `Nat` state. -/
def lcgNext (s : Nat) : Nat := (1664525 * s + 1013904223) % 4294967296

/-- Modelled from the spec: draw a pseudo-random index below `n` from
the generator's high-order bits, returning it with the advanced
generator state. -/
def randbelow (n : Nat) (s : Nat) : Nat × Nat :=
  (lcgNext s / 65536 % n, lcgNext s)

/-- `random.seed(42)`: the generator state at process start. -/
def seededState : Nat := 42

/-- Modelled from the spec: `random.shuffle` as a seeded deterministic
pseudo-random permutation — repeatedly draw an index into the remaining
list, move that element to the output, and recurse on the rest.  `fuel`
starts at the list's length and bounds the recursion. -/
def shuffleFuel : Nat → List α → Nat → List α × Nat
  | 0, l, s => (l, s)
  | _ + 1, [], s => ([], s)
  | fuel + 1, a :: as, s =>
    let p := randbelow (a :: as).length s
    let x := (a :: as).getD p.1 a
    let rest := (a :: as).eraseIdx p.1
    let q := shuffleFuel fuel rest p.2
    (x :: q.1, q.2)

/-- `random.shuffle(records)` with the generator state threaded
explicitly: returns the permuted contents of the list and the new
state. -/
def shuffle (l : List α) (s : Nat) : List α × Nat :=
  shuffleFuel l.length l s

/-- The cut position `int(n * q)` of the splitter: Python `int()` of a
non-negative value is the floor. -/
def cut (n : Nat) (q : ℚ) : Nat := ⌊(n : ℚ) * q⌋₊

/-- The notebook's splitter:
`def split_dataset(records, train_ratio=0.7, val_ratio=0.15)` —
shuffles `records` in place, then returns
`records[:train_end], records[train_end:val_end], records[val_end:]`
with `train_end = int(n * train_ratio)` and
`val_end = int(n * (train_ratio + val_ratio))`.  The ratios (Python
floats, binders renamed `tr`/`vr` here) are exact rationals, and Python
slices clamp exactly as `List.take`/`List.drop` do.  Besides the three
slices the result carries the post-call contents of the caller's
(mutated) list and the advanced generator state. -/
def split_dataset (records : List α) (tr vr : ℚ) (s : Nat) :
    (List α × List α × List α) × List α × Nat :=
  let sh := shuffle records s
  let n := sh.1.length
  let train_end := cut n tr
  let val_end := cut n (tr + vr)
  ((sh.1.take train_end, (sh.1.take val_end).drop train_end, sh.1.drop val_end),
    sh.1, sh.2)

theorem cons_eraseIdx_perm (l : List α) (j : Nat) (hj : j < l.length) (a₀ : α) :
    (l.getD j a₀ :: l.eraseIdx j).Perm l := by
  have hget : l.getD j a₀ = l.get ⟨j, hj⟩ := by
    simp [List.getD_eq_getElem?_getD, List.getElem?_eq_getElem hj]
  rw [hget, List.eraseIdx_eq_take_drop_succ]
  have hsplit : l.take j ++ l.get ⟨j, hj⟩ :: l.drop (j + 1) = l := by
    conv_rhs => rw [← List.take_append_drop j l]
    rw [List.drop_eq_getElem_cons hj]
    rfl
  refine List.Perm.trans List.perm_middle.symm ?_
  rw [hsplit]

theorem shuffleFuel_perm (fuel : Nat) :
    ∀ (l : List α) (s : Nat), (shuffleFuel fuel l s).1.Perm l := by
  induction fuel with
  | zero => intro l s; exact List.Perm.refl l
  | succ fuel ih =>
    intro l s
    match l with
    | [] => exact List.Perm.refl []
    | a :: as =>
      have hj : (randbelow (a :: as).length s).1 < (a :: as).length :=
        Nat.mod_lt _ (by simp)
      exact List.Perm.trans (List.Perm.cons _ (ih _ _)) (cons_eraseIdx_perm _ _ hj _)

theorem shuffle_perm (l : List α) (s : Nat) : (shuffle l s).1.Perm l :=
  shuffleFuel_perm l.length l s

theorem shuffle_length (l : List α) (s : Nat) : (shuffle l s).1.length = l.length :=
  (shuffle_perm l s).length_eq

/-- The three Python slices `l[:a]`, `l[a:b]`, `l[b:]` reassemble `l`
whenever `a ≤ b`. -/
theorem slices_append (l : List α) (a b : Nat) (hab : a ≤ b) :
    l.take a ++ ((l.take b).drop a ++ l.drop b) = l := by
  have h1 : (l.take b).take a = l.take a := by
    rw [List.take_take, Nat.min_eq_left hab]
  calc l.take a ++ ((l.take b).drop a ++ l.drop b)
      = ((l.take b).take a ++ (l.take b).drop a) ++ l.drop b := by
        rw [h1, List.append_assoc]
    _ = l.take b ++ l.drop b := by rw [List.take_append_drop]
    _ = l := List.take_append_drop b l

theorem cut_mono (n : Nat) (q1 q2 : ℚ) (h : q1 ≤ q2) : cut n q1 ≤ cut n q2 := by
  apply Nat.floor_le_floor
  exact mul_le_mul_of_nonneg_left h (by positivity)

theorem cut_le_self (n : Nat) (q : ℚ) (hq : q ≤ 1) : cut n q ≤ n := by
  have h : (n : ℚ) * q ≤ (n : ℚ) := by
    calc (n : ℚ) * q ≤ (n : ℚ) * 1 := mul_le_mul_of_nonneg_left hq (by positivity)
      _ = (n : ℚ) := mul_one _
  calc cut n q ≤ ⌊(n : ℚ)⌋₊ := Nat.floor_le_floor h
    _ = n := Nat.floor_natCast n

theorem le_cut_self (n : Nat) (q : ℚ) (hq : 1 ≤ q) : n ≤ cut n q := by
  have h : (n : ℚ) ≤ (n : ℚ) * q := by
    calc (n : ℚ) = (n : ℚ) * 1 := (mul_one _).symm
      _ ≤ (n : ℚ) * q := mul_le_mul_of_nonneg_left hq (by positivity)
  calc n = ⌊(n : ℚ)⌋₊ := (Nat.floor_natCast n).symm
    _ ≤ cut n q := Nat.floor_le_floor h

/-- `split_dataset` written out with the cut positions expressed in
terms of the input length. -/
theorem split_dataset_def (records : List α) (tr vr : ℚ) (s : Nat) :
    split_dataset records tr vr s =
      (((shuffle records s).1.take (cut records.length tr),
        ((shuffle records s).1.take (cut records.length (tr + vr))).drop
          (cut records.length tr),
        (shuffle records s).1.drop (cut records.length (tr + vr))),
        (shuffle records s).1, (shuffle records s).2) := by
  simp only [split_dataset, shuffle_length]

/-!
### Sampling weights
-/

/-- `label_counts = Counter(train_labels)` with
`train_labels = [r['label'] for r in train_records]`: the number of
training records carrying label `l`. -/
def label_counts (train_records : List Record) (l : String) : Nat :=
  (train_records.map Record.label).count l

/-- `weights = [1.0 / label_counts[r['label']] for r in train_records]`
(the spec's `compute_weights`), in exact rational arithmetic. -/
def compute_weights (train_records : List Record) : List ℚ :=
  train_records.map (fun r => 1 / (label_counts train_records r.label : ℚ))

/-!
### Crop-and-transform pipeline (`MalariaDataset.__getitem__`)
-/

/-- An image, modelled by its shape only — the claims about the
pipeline concern errors and output shape, never pixel values. -/
structure PILImage where
  width : Nat
  height : Nat
deriving DecidableEq

/-- Modelled from the spec (external collaborator, the image store):
`Image.open(os.path.join(DATA_DIR, rec['image'])).convert('RGB')` —
a file missing from the store raises (`FileNotFoundError`). -/
def image_open (store : String → Option PILImage) (name : String) :
    Except PyError PILImage :=
  match store name with
  | some img => .ok img
  | none => .error .fileNotFoundError

/-- Modelled from PIL's documented semantics of
`img.crop((x, y, x + w, y + h))`: the returned region always has
exactly the requested size; any part of the box lying outside the image
is silently padded, and no exception is raised for an out-of-bounds
box. -/
def PILImage.crop (_ : PILImage) (left upper right lower : Int) : PILImage :=
  ⟨(right - left).toNat, (lower - upper).toNat⟩

/-- Modelled from the spec: the deterministic evaluation transform
`transforms.Resize((224, 224))` plus tensor conversion — a fixed
224×224 shape whatever the input size. -/
def val_resize (_ : PILImage) : PILImage := ⟨224, 224⟩

/-- `MalariaDataset.__getitem__(idx)` under the evaluation transform:
`rec = self.records[idx]` (an out-of-range index raises `IndexError`),
open the referenced image, crop to the record's bounding box, apply the
transform, and pair the result with `label2idx[rec['label']]`. -/
def getitem (store : String → Option PILImage) (label2idx : String → Nat)
    (records : List Record) (idx : Nat) : Except PyError (PILImage × Nat) :=
  match records.get? idx with
  | none => .error .indexError
  | some r =>
    match image_open store r.image with
    | .error e => .error e
    | .ok img =>
      .ok (val_resize
            (img.crop r.bbox.x r.bbox.y (r.bbox.x + r.bbox.w) (r.bbox.y + r.bbox.h)),
        label2idx r.label)

/-!
### Evaluation reporting
-/

/-- Modelled from the spec: `sklearn.metrics.confusion_matrix` over `K`
classes — "a K×K confusion matrix where `confusion[i][j]` counts
true-label i predicted as j", on the accumulated
(true label, predicted label) pairs. -/
def confusion_matrix (K : Nat) (pairs : List (Nat × Nat)) : List (List Nat) :=
  (List.range K).map (fun i => (List.range K).map (fun j =>
    pairs.countP (fun p => p.1 == i && p.2 == j)))

/-- Modelled from the spec: `sklearn.metrics.accuracy_score` — the
fraction of (true label, predicted label) pairs whose labels agree. -/
def accuracy_score (pairs : List (Nat × Nat)) : ℚ :=
  (pairs.countP (fun p => p.1 == p.2) : ℚ) / (pairs.length : ℚ)

/-!
### Concrete fixtures used by witnesses and counterexamples
-/

/-- A training record with label `"ring"`. -/
def recRing1 : Record := ⟨"im1.png", "ring", ⟨1, 2, 10, 10⟩⟩

/-- A second `"ring"` record. -/
def recRing2 : Record := ⟨"im2.png", "ring", ⟨3, 4, 12, 12⟩⟩

/-- A third `"ring"` record. -/
def recRing3 : Record := ⟨"im3.png", "ring", ⟨5, 6, 14, 14⟩⟩

/-- A record with label `"schizont"`. -/
def recSchiz : Record := ⟨"im4.png", "schizont", ⟨7, 8, 16, 16⟩⟩

/-- Four distinct records. -/
def recs4 : List Record := [recRing1, recRing2, recRing3, recSchiz]

/-- Five distinct records. -/
def recs5 : List Record := recs4 ++ [⟨"im5.png", "ring", ⟨0, 0, 9, 9⟩⟩]

/-- An image store holding a single 100×100 image `"im1.png"`. -/
def store1 (name : String) : Option PILImage :=
  if name = "im1.png" then some ⟨100, 100⟩ else none

/-- A record whose bounding box `[50, 50, 100, 100]` extends past the
right and bottom edges of the 100×100 image it references. -/
def recOOB : Record := ⟨"im1.png", "ring", ⟨50, 50, 100, 100⟩⟩

/-- The label-to-index map used in the fixtures (`"ring"` ↦ 0). -/
def lab0 (l : String) : Nat := if l = "schizont" then 1 else 0

/-!
### Claims about the splitter
-/

/-- Claim C1: for every record list and ratios with `0 ≤ tr`, `0 ≤ vr`
and `tr + vr ≤ 1`, `split_dataset` returns the shuffled sequence cut at
`⌊n*tr⌋` and `⌊n*(tr+vr)⌋`; the three slices are a true partition: their
lengths sum to `n`, they occupy pairwise-disjoint position ranges of the
shuffled sequence (their concatenation is exactly that sequence), and
every input record appears in exactly one of them (multiset equality
with the input). -/
theorem split_is_partition {α : Type} [DecidableEq α] (records : List α)
    (tr vr : ℚ) (s : Nat) (htr : 0 ≤ tr) (hvr : 0 ≤ vr) (hsum : tr + vr ≤ 1) :
    (split_dataset records tr vr s).1.1 =
        (shuffle records s).1.take (cut records.length tr) ∧
    (split_dataset records tr vr s).1.2.1 =
        ((shuffle records s).1.take (cut records.length (tr + vr))).drop
          (cut records.length tr) ∧
    (split_dataset records tr vr s).1.2.2 =
        (shuffle records s).1.drop (cut records.length (tr + vr)) ∧
    (shuffle records s).1.Perm records ∧
    (split_dataset records tr vr s).1.1.length = cut records.length tr ∧
    (split_dataset records tr vr s).1.2.1.length =
        cut records.length (tr + vr) - cut records.length tr ∧
    (split_dataset records tr vr s).1.2.2.length =
        records.length - cut records.length (tr + vr) ∧
    (split_dataset records tr vr s).1.1.length +
        (split_dataset records tr vr s).1.2.1.length +
        (split_dataset records tr vr s).1.2.2.length = records.length ∧
    (split_dataset records tr vr s).1.1 ++
        ((split_dataset records tr vr s).1.2.1 ++
          (split_dataset records tr vr s).1.2.2) = (shuffle records s).1 ∧
    ∀ x, ((split_dataset records tr vr s).1.1 ++
        ((split_dataset records tr vr s).1.2.1 ++
          (split_dataset records tr vr s).1.2.2)).count x = records.count x := by
  have hperm := shuffle_perm records s
  have hlen : (shuffle records s).1.length = records.length := shuffle_length records s
  have hab : cut records.length tr ≤ cut records.length (tr + vr) :=
    cut_mono records.length tr (tr + vr) (le_add_of_nonneg_right hvr)
  have hbn : cut records.length (tr + vr) ≤ records.length :=
    cut_le_self records.length (tr + vr) hsum
  have han : cut records.length tr ≤ records.length := le_trans hab hbn
  rw [split_dataset_def]
  have hcat :
      (shuffle records s).1.take (cut records.length tr) ++
        (((shuffle records s).1.take (cut records.length (tr + vr))).drop
            (cut records.length tr) ++
          (shuffle records s).1.drop (cut records.length (tr + vr))) =
        (shuffle records s).1 :=
    slices_append (shuffle records s).1 _ _ hab
  refine ⟨rfl, rfl, rfl, hperm, ?_, ?_, ?_, ?_, hcat, ?_⟩
  · rw [List.length_take, hlen]; exact Nat.min_eq_left han
  · rw [List.length_drop, List.length_take, hlen, Nat.min_eq_left hbn]
  · rw [List.length_drop, hlen]
  · rw [List.length_take, List.length_drop, List.length_take, List.length_drop,
      hlen, Nat.min_eq_left han, Nat.min_eq_left hbn]
    omega
  · intro x
    rw [hcat]
    exact hperm.count_eq x

/-- Witness for C1: the concrete four-record split with the notebook's
default ratios 7/10 and 3/20 — the instantiated sum-of-lengths
conjunct. -/
theorem split_is_partition_witness :
    (split_dataset recs4 (7/10 : ℚ) (3/20 : ℚ) seededState).1.1.length +
      (split_dataset recs4 (7/10 : ℚ) (3/20 : ℚ) seededState).1.2.1.length +
      (split_dataset recs4 (7/10 : ℚ) (3/20 : ℚ) seededState).1.2.2.length =
      recs4.length :=
  (split_is_partition recs4 (7/10) (3/20) seededState (by norm_num) (by norm_num)
    (by norm_num)).2.2.2.2.2.2.2.1

/-- Claim C2 counterexample: `split_dataset` reads and advances the
hidden process-wide generator state (the notebook seeds it only once,
at process start), so two successive calls on the same input with the
same ratios return different train memberships. -/
theorem split_second_call_differs :
    (split_dataset recs4 (1/2 : ℚ) (1/4 : ℚ) seededState).1.1 ≠
      (split_dataset recs4 (1/2 : ℚ) (1/4 : ℚ)
        (split_dataset recs4 (1/2 : ℚ) (1/4 : ℚ) seededState).2.2).1.1 := by
  have h1 : (split_dataset recs4 (1/2 : ℚ) (1/4 : ℚ) seededState).1.1 =
      [recRing2, recRing1] := by with_unfolding_all rfl
  have h2 : (split_dataset recs4 (1/2 : ℚ) (1/4 : ℚ)
      (split_dataset recs4 (1/2 : ℚ) (1/4 : ℚ) seededState).2.2).1.1 =
      [recSchiz, recRing2] := by with_unfolding_all rfl
  rw [h1, h2]
  decide

/-- Claim C2 (amended): the split is a deterministic pure function of
the record list, the ratios, and the generator state at call time —
calls agreeing on all of these (e.g. after re-seeding) produce
identical train/val/test memberships; but the state is hidden
process-wide data that each call advances, so successive calls differ
(see the counterexample). -/
theorem split_deterministic_in_state {α : Type} (r1 r2 : List α)
    (tr1 vr1 tr2 vr2 : ℚ) (s1 s2 : Nat) (hr : r1 = r2) (ht : tr1 = tr2)
    (hv : vr1 = vr2) (hs : s1 = s2) :
    (split_dataset r1 tr1 vr1 s1).1.1 = (split_dataset r2 tr2 vr2 s2).1.1 ∧
    (split_dataset r1 tr1 vr1 s1).1.2.1 = (split_dataset r2 tr2 vr2 s2).1.2.1 ∧
    (split_dataset r1 tr1 vr1 s1).1.2.2 = (split_dataset r2 tr2 vr2 s2).1.2.2 := by
  subst hr; subst ht; subst hv; subst hs
  exact ⟨rfl, rfl, rfl⟩

/-- Witness for the amended C2: two textually separate calls from the
seeded state coincide on the train split. -/
theorem split_deterministic_in_state_witness :
    (split_dataset recs4 (7/10 : ℚ) (3/20 : ℚ) seededState).1.1 =
      (split_dataset recs4 (7/10 : ℚ) (3/20 : ℚ) seededState).1.1 :=
  (split_deterministic_in_state recs4 recs4 (7/10) (3/20) (7/10) (3/20)
    seededState seededState rfl rfl rfl rfl).1

/-- Claim C6 counterexample: with `train_ratio = val_ratio = 4/5`
(sum `8/5 > 1`) on five records, `split_dataset` raises nothing — there
is no ratio check and no `InvalidRatioError` in the code; the call
returns a clamped partition with an empty test split. -/
theorem split_accepts_ratio_sum_gt_one :
    (1 : ℚ) < 4/5 + 4/5 ∧
    (split_dataset recs5 (4/5 : ℚ) (4/5 : ℚ) seededState).1.1.length = 4 ∧
    (split_dataset recs5 (4/5 : ℚ) (4/5 : ℚ) seededState).1.2.1.length = 1 ∧
    (split_dataset recs5 (4/5 : ℚ) (4/5 : ℚ) seededState).1.2.2 = [] := by
  refine ⟨by norm_num, ?_, ?_, ?_⟩
  · with_unfolding_all rfl
  · with_unfolding_all rfl
  · with_unfolding_all rfl

/-- Claim C6 (amended): `split_dataset` never validates its ratios and
has no error path at all.  For any `0 ≤ vr` the three returned slices
reassemble the shuffled list; the test split is always the remainder
past the second cut; when the ratios sum to `1` or more the slices
clamp and the test split is empty. -/
theorem split_no_ratio_validation {α : Type} (records : List α) (tr vr : ℚ)
    (s : Nat) (hvr : 0 ≤ vr) :
    ((split_dataset records tr vr s).1.1 ++
        ((split_dataset records tr vr s).1.2.1 ++
          (split_dataset records tr vr s).1.2.2) = (shuffle records s).1) ∧
    (split_dataset records tr vr s).1.2.2 =
        (shuffle records s).1.drop (cut records.length (tr + vr)) ∧
    (1 ≤ tr + vr → (split_dataset records tr vr s).1.2.2 = []) := by
  have hab : cut records.length tr ≤ cut records.length (tr + vr) :=
    cut_mono records.length tr (tr + vr) (le_add_of_nonneg_right hvr)
  have hlen : (shuffle records s).1.length = records.length := shuffle_length records s
  rw [split_dataset_def]
  refine ⟨slices_append (shuffle records s).1 _ _ hab, rfl, ?_⟩
  intro hge
  apply List.drop_eq_nil_of_le
  rw [hlen]
  exact le_cut_self records.length (tr + vr) hge

/-- Witness for the amended C6: at ratios summing to `8/5`, the slices
of the concrete five-record split reassemble the shuffled list. -/
theorem split_no_ratio_validation_witness :
    (split_dataset recs5 (4/5 : ℚ) (4/5 : ℚ) seededState).1.1 ++
      ((split_dataset recs5 (4/5 : ℚ) (4/5 : ℚ) seededState).1.2.1 ++
        (split_dataset recs5 (4/5 : ℚ) (4/5 : ℚ) seededState).1.2.2) =
      (shuffle recs5 seededState).1 :=
  (split_no_ratio_validation recs5 (4/5) (4/5) seededState (by norm_num)).1

/-- Claim C10: `random.shuffle(records)` inside `split_dataset` mutates
the caller's list in place: after the call the list holds the shuffled
permutation of its original contents — the same record values as a
multiset — the returned splits are slices of that permuted list, and on
a concrete call the order genuinely differs from the original. -/
theorem split_mutates_input_list (records : List Record) (tr vr : ℚ) (s : Nat) :
    (split_dataset records tr vr s).2.1 = (shuffle records s).1 ∧
    (split_dataset records tr vr s).2.1.Perm records ∧
    (∀ x, (split_dataset records tr vr s).2.1.count x = records.count x) ∧
    (0 ≤ vr →
      (split_dataset records tr vr s).1.1 ++
        ((split_dataset records tr vr s).1.2.1 ++
          (split_dataset records tr vr s).1.2.2) =
        (split_dataset records tr vr s).2.1) ∧
    (split_dataset recs4 (7/10 : ℚ) (3/20 : ℚ) seededState).2.1 ≠ recs4 := by
  have hperm := shuffle_perm records s
  refine ⟨by rw [split_dataset_def], by rw [split_dataset_def]; exact hperm,
    ?_, ?_, ?_⟩
  · intro x
    rw [split_dataset_def]
    exact hperm.count_eq x
  · intro hvr
    have hab : cut records.length tr ≤ cut records.length (tr + vr) :=
      cut_mono records.length tr (tr + vr) (le_add_of_nonneg_right hvr)
    rw [split_dataset_def]
    exact slices_append (shuffle records s).1 _ _ hab
  · have h1 : (split_dataset recs4 (7/10 : ℚ) (3/20 : ℚ) seededState).2.1 =
        [recRing2, recRing1, recRing3, recSchiz] := by with_unfolding_all rfl
    rw [h1]
    decide

/-- Witness for C10: the reassembly conjunct instantiated at the
concrete four-record call. -/
theorem split_mutates_input_list_witness :
    (split_dataset recs4 (7/10 : ℚ) (3/20 : ℚ) seededState).1.1 ++
      ((split_dataset recs4 (7/10 : ℚ) (3/20 : ℚ) seededState).1.2.1 ++
        (split_dataset recs4 (7/10 : ℚ) (3/20 : ℚ) seededState).1.2.2) =
      (split_dataset recs4 (7/10 : ℚ) (3/20 : ℚ) seededState).2.1 :=
  (split_mutates_input_list recs4 (7/10) (3/20) seededState).2.2.2.1 (by norm_num)

/-!
### Claims about the sampling weights
-/

theorem zip_map_self {α β : Type} (f : α → β) (l : List α) :
    l.zip (l.map f) = l.map (fun a => (a, f a)) := by
  induction l with
  | nil => rfl
  | cons a t ih => simp [ih]

/-- Claim C3: on a non-empty training split, `compute_weights` returns
one weight per training record, the weight at each position being
`1 / (number of training records sharing that record's label)`; in
particular a 2-record split of one `"schizont"` and one `"ring"` gives
the `"schizont"` record weight 1, and a 2-record all-`"ring"` split
gives each record weight 1/2. -/
theorem compute_weights_per_record (trs : List Record) (hne : trs ≠ []) :
    (compute_weights trs).length = trs.length ∧
    (∀ i : Nat, (compute_weights trs).get? i =
      (trs.get? i).map (fun r => 1 / (label_counts trs r.label : ℚ))) ∧
    compute_weights [recSchiz, recRing1] = [1, 1] ∧
    compute_weights [recRing1, recRing2] = [1/2, 1/2] := by
  refine ⟨by simp [compute_weights], fun i => ?_, by with_unfolding_all rfl,
    by with_unfolding_all rfl⟩
  simp [compute_weights, List.get?_map]

/-- Witness for C3: the schizont/ring split instantiated. -/
theorem compute_weights_per_record_witness :
    compute_weights [recSchiz, recRing1] = [1, 1] :=
  (compute_weights_per_record [recSchiz, recRing1] (by simp)).2.2.1

/-- Claim C5: for every training split and every label occurring in it,
the weights of the records carrying that label sum to exactly 1 (so the
per-label totals agree across all labels present). -/
theorem compute_weights_label_sums_equal (trs : List Record) (l : String)
    (hl : l ∈ trs.map Record.label) :
    ((((trs.zip (compute_weights trs)).filter
        (fun p => p.1.label == l)).map Prod.snd)).sum = 1 := by
  have hc : 0 < label_counts trs l := by
    unfold label_counts
    exact List.count_pos_iff.mpr hl
  have hcQ : (label_counts trs l : ℚ) ≠ 0 := by
    exact_mod_cast Nat.pos_iff_ne_zero.mp hc
  rw [show compute_weights trs =
      trs.map (fun r => 1 / (label_counts trs r.label : ℚ)) from rfl]
  rw [zip_map_self]
  rw [List.filter_map, List.map_map]
  have hfun : ∀ r ∈ trs.filter
      ((fun p : Record × ℚ => p.1.label == l) ∘
        (fun a => (a, 1 / (label_counts trs a.label : ℚ)))),
      (Prod.snd ∘ fun a => (a, 1 / (label_counts trs a.label : ℚ))) r =
        1 / (label_counts trs l : ℚ) := by
    intro r hr
    have hmem := List.mem_filter.mp hr
    have hlab : r.label = l := by
      have := hmem.2
      simpa [Function.comp] using this
    simp [Function.comp, hlab]
  rw [List.map_congr_left hfun]
  rw [List.map_const']
  rw [List.sum_replicate]
  have hflen : (trs.filter
      ((fun p : Record × ℚ => p.1.label == l) ∘
        (fun a => (a, 1 / (label_counts trs a.label : ℚ))))).length =
      label_counts trs l := by
    rw [← List.countP_eq_length_filter]
    unfold label_counts
    rw [List.count_eq_countP, List.countP_map]
    rfl
  rw [hflen, nsmul_eq_mul]
  exact mul_one_div_cancel hcQ

/-- Witness for C5: three records, two `"ring"` and one `"schizont"`;
the `"ring"` weights sum to 1. -/
theorem compute_weights_label_sums_equal_witness :
    (((([recRing1, recRing2, recSchiz].zip
        (compute_weights [recRing1, recRing2, recSchiz])).filter
        (fun p => p.1.label == "ring")).map Prod.snd)).sum = 1 :=
  compute_weights_label_sums_equal [recRing1, recRing2, recSchiz] "ring"
    (by simp [recRing1, recRing2, recSchiz])

/-!
### Claims about the flattener and the crop pipeline
-/

/-- Claim C4: for every annotation input, the flattener succeeds and
produces exactly one record per object annotation, in source order
(earlier entries first, objects in order within an entry), each record
carrying its (entry, object) pair's image reference, label and bounding
box — i.e. it returns exactly `specFlatten`, whose length is the total
object count. -/
theorem flattener_one_record_per_object (entries : List WFEntry) :
    dataset_records (entries.map WFEntry.toRaw) = .ok (specFlatten entries) ∧
    (specFlatten entries).length = (entries.map (fun e => e.objects.length)).sum := by
  refine ⟨dataset_records_toRaw entries, ?_⟩
  simp only [specFlatten, List.length_flatMap]
  have hcong : ∀ e ∈ entries,
      (List.length ∘ fun e2 : WFEntry =>
        List.map (WFObject.toRecord e2.image_name) e2.objects) e =
      e.objects.length := by
    intro e he
    simp
  rw [List.map_congr_left hcong]

theorem objRecord_isOk (imgName : String) (o : RawObject) :
    (objRecord imgName o).isOk = o.wellFormed := by
  rcases o with ⟨t, b⟩
  cases t with
  | none => simp [objRecord, getKey, RawObject.wellFormed, Except.isOk, Except.toBool,
      Bind.bind, Except.bind]
  | some tv =>
    cases b with
    | none => simp [objRecord, getKey, RawObject.wellFormed, Except.isOk, Except.toBool,
        Bind.bind, Except.bind]
    | some bb =>
      rcases bb with ⟨x, y, w, h⟩
      cases x <;> cases y <;> cases w <;> cases h <;>
        simp [objRecord, getKey, RawObject.wellFormed, Except.isOk, Except.toBool,
          Bind.bind, Except.bind]

theorem objsRecords_isOk (imgName : String) (objs : List RawObject) :
    (objsRecords imgName objs).isOk = objs.all RawObject.wellFormed := by
  induction objs with
  | nil => rfl
  | cons o rest ih =>
    cases hro : objRecord imgName o with
    | error e =>
      have hwf : o.wellFormed = false := by rw [← objRecord_isOk imgName, hro]; rfl
      simp [objsRecords, hro, hwf, Except.isOk, Except.toBool, Bind.bind, Except.bind]
    | ok r =>
      have hwf : o.wellFormed = true := by rw [← objRecord_isOk imgName, hro]; rfl
      cases hrest : objsRecords imgName rest with
      | error e =>
        have : (objsRecords imgName rest).isOk = false := by rw [hrest]; rfl
        rw [this] at ih
        simp [objsRecords, hro, hrest, hwf, Except.isOk, Except.toBool, Bind.bind, Except.bind, ← ih]
      | ok rs =>
        have : (objsRecords imgName rest).isOk = true := by rw [hrest]; rfl
        rw [this] at ih
        simp [objsRecords, hro, hrest, hwf, Except.isOk, Except.toBool, Bind.bind, Except.bind, ← ih]

/-- Claim C7 (amended): the flattener fails — with Python's `KeyError`,
not a dedicated `MalformedAnnotationError` — exactly when some entry
lacks a required field (`image_name`, `objects`, an object's `type` or a
bounding-box coordinate); bounding boxes are not otherwise validated,
so a negative width or height raises nothing (see the
counterexample). -/
theorem flattener_error_iff_missing_field (annotations : List RawEntry) :
    (dataset_records annotations).isOk = annotations.all RawEntry.wellFormed := by
  induction annotations with
  | nil => rfl
  | cons e rest ih =>
    rcases e with ⟨imgName, objs⟩
    cases imgName with
    | none => simp [dataset_records, getKey, RawEntry.wellFormed, Except.isOk, Except.toBool,
        Bind.bind, Except.bind]
    | some nm =>
      cases objs with
      | none => simp [dataset_records, getKey, RawEntry.wellFormed, Except.isOk, Except.toBool,
          Bind.bind, Except.bind]
      | some os =>
        cases hos : objsRecords nm os with
        | error e2 =>
          have hwf : os.all RawObject.wellFormed = false := by
            rw [← objsRecords_isOk nm, hos]; rfl
          simp [dataset_records, getKey, RawEntry.wellFormed, hos, hwf,
            Except.isOk, Except.toBool, Bind.bind, Except.bind]
        | ok rs =>
          have hwf : os.all RawObject.wellFormed = true := by
            rw [← objsRecords_isOk nm, hos]; rfl
          cases hrest : dataset_records rest with
          | error e3 =>
            have : (dataset_records rest).isOk = false := by rw [hrest]; rfl
            rw [this] at ih
            simp [dataset_records, getKey, RawEntry.wellFormed, hos, hrest, hwf,
              Except.isOk, Except.toBool, Bind.bind, Except.bind, ← ih]
          | ok rest2 =>
            have : (dataset_records rest).isOk = true := by rw [hrest]; rfl
            rw [this] at ih
            simp [dataset_records, getKey, RawEntry.wellFormed, hos, hrest, hwf,
              Except.isOk, Except.toBool, Bind.bind, Except.bind, ← ih]

/-- An entry whose single object has a bounding box of negative
height. -/
def negEntry : RawEntry :=
  ⟨some "imX.png", some [⟨some "ring", some ⟨some 0, some 0, some 5, some (-3)⟩⟩]⟩

/-- Claim C7 counterexample: an object annotation with a negative
bounding-box height does not make the flattener fail — it silently
produces a record with the negative height, though the claim demands a
`MalformedAnnotationError`. -/
theorem flattener_accepts_negative_bbox :
    (-3 : Int) < 0 ∧
    dataset_records [negEntry] = .ok [⟨"imX.png", "ring", ⟨0, 0, 5, -3⟩⟩] := by
  exact ⟨by decide, rfl⟩

/-- Claim C8 (amended): fetching a record through
`MalariaDataset.__getitem__` fails (with `FileNotFoundError`, the
spec's `ImageLoadError`) when the referenced image is missing from the
store; but when the image loads, the call always succeeds with a
224×224 tensor and the record's label index — the bounding box is never
compared against the image dimensions, so an out-of-bounds box is
silently cropped-with-padding (see the counterexample). -/
theorem getitem_error_behavior (store : String → Option PILImage)
    (label2idx : String → Nat) (records : List Record) (idx : Nat) (r : Record)
    (hr : records[idx]? = some r) :
    (store r.image = none →
      getitem store label2idx records idx = .error .fileNotFoundError) ∧
    (∀ img : PILImage, store r.image = some img →
      getitem store label2idx records idx = .ok (⟨224, 224⟩, label2idx r.label)) := by
  constructor
  · intro hs
    simp [getitem, hr, image_open, hs]
  · intro img hs
    simp [getitem, hr, image_open, hs, val_resize]

/-- Witness for the amended C8: the record `recOOB` references the
present image `"im1.png"`, so the fetch succeeds with a 224×224
output. -/
theorem getitem_error_behavior_witness :
    getitem store1 lab0 [recOOB] 0 = .ok (⟨224, 224⟩, lab0 recOOB.label) :=
  (getitem_error_behavior store1 lab0 [recOOB] 0 recOOB rfl).2 ⟨100, 100⟩ rfl

/-- Claim C8 counterexample: `recOOB`'s box `[50, 50, 100, 100]` runs
past both edges of the 100×100 stored image, yet `__getitem__` raises
no `CropOutOfBoundsError` — it silently returns a tensor. -/
theorem getitem_silent_on_oob_bbox :
    store1 recOOB.image = some ⟨100, 100⟩ ∧
    (100 : Int) < recOOB.bbox.x + recOOB.bbox.w ∧
    (100 : Int) < recOOB.bbox.y + recOOB.bbox.h ∧
    getitem store1 lab0 [recOOB] 0 = .ok (⟨224, 224⟩, 0) := by
  refine ⟨rfl, by decide, by decide, rfl⟩

/-!
### Claims about the evaluation reporting
-/

theorem sum_map_add (l : List Nat) (f g : Nat → Nat) :
    (l.map (fun i => f i + g i)).sum = (l.map f).sum + (l.map g).sum := by
  induction l with
  | nil => rfl
  | cons a t ih =>
    simp only [List.map_cons, List.sum_cons, ih]
    omega

theorem indicator_sum (K v w : Nat) (hv : v < K) :
    ((List.range K).map (fun i => if v == i && w == i then 1 else 0)).sum =
      if v == w then 1 else 0 := by
  induction K with
  | zero => exact absurd hv (Nat.not_lt_zero v)
  | succ K ih =>
    rw [List.range_succ, List.map_append, List.sum_append]
    by_cases hvK : v = K
    · subst hvK
      have h0 : ((List.range v).map
          (fun i => if v == i && w == i then 1 else 0)).sum = 0 := by
        apply List.sum_eq_zero
        intro x hx
        rcases List.mem_map.mp hx with ⟨i, hi, hxe⟩
        have hlt : i < v := List.mem_range.mp hi
        have hne : v ≠ i := by omega
        rw [← hxe]
        simp [hne]
      rw [h0]
      by_cases hw : w = v
      · simp [hw]
      · have hvw : v ≠ w := fun h => hw h.symm
        simp [hw, hvw]
    · have hvK2 : v < K := by
        have := Nat.lt_succ_iff.mp hv
        omega
      rw [ih hvK2]
      simp [hvK]

theorem diag_count_sum (K : Nat) (pairs : List (Nat × Nat))
    (h : ∀ p ∈ pairs, p.1 < K) :
    ((List.range K).map
        (fun i => pairs.countP (fun p => p.1 == i && p.2 == i))).sum =
      pairs.countP (fun p => p.1 == p.2) := by
  induction pairs with
  | nil => simp
  | cons q rest ih =>
    have hq : q.1 < K := h q (List.mem_cons_self q rest)
    have hr : ∀ p ∈ rest, p.1 < K := fun p hp => h p (List.mem_cons_of_mem q hp)
    simp only [List.countP_cons]
    rw [sum_map_add, ih hr, indicator_sum K q.1 q.2 hq]

/-- Claim C9: the reporting component — `confusion_matrix` and
`accuracy_score` on the accumulated (true, predicted) pairs — outputs a
K×K matrix whose entry `[i][j]` counts pairs with true label `i`
predicted as `j` (so that on labels all below `K`, accuracy times the
pair count equals the sum of the diagonal entries), and an accuracy
equal to the fraction of agreeing pairs; on true `[0,0,1,1]` versus
predicted `[0,1,1,1]` it outputs `[[1,1],[0,2]]` and accuracy 3/4. -/
theorem reporting_confusion_and_accuracy :
    (∀ (K : Nat) (pairs : List (Nat × Nat)),
      (confusion_matrix K pairs).length = K ∧
      (∀ row ∈ confusion_matrix K pairs, row.length = K) ∧
      ∀ i j : Nat, i < K → j < K →
        ((confusion_matrix K pairs).get? i).bind (fun row => row.get? j) =
          some (pairs.countP (fun p => p.1 == i && p.2 == j))) ∧
    (∀ (K : Nat) (pairs : List (Nat × Nat)),
      (∀ p ∈ pairs, p.1 < K) → pairs ≠ [] →
      accuracy_score pairs * (pairs.length : ℚ) =
        (((List.range K).map
          (fun i => pairs.countP (fun p => p.1 == i && p.2 == i))).sum : ℚ)) ∧
    confusion_matrix 2 [(0,0),(0,1),(1,1),(1,1)] = [[1,1],[0,2]] ∧
    accuracy_score [(0,0),(0,1),(1,1),(1,1)] = 3/4 := by
  refine ⟨?_, ?_, by decide, by with_unfolding_all rfl⟩
  · intro K pairs
    refine ⟨by simp [confusion_matrix], ?_, ?_⟩
    · intro row hrow
      rcases List.mem_map.mp hrow with ⟨i, hi, he⟩
      rw [← he]
      simp
    · intro i j hi hj
      simp [confusion_matrix, List.get?_eq_getElem?, List.getElem?_map,
        List.getElem?_range, hi, hj]
  · intro K pairs hK hne
    have hlen : (pairs.length : ℚ) ≠ 0 := by
      exact_mod_cast List.length_pos.mpr hne |> Nat.pos_iff_ne_zero.mp
    rw [accuracy_score, div_mul_cancel₀ _ hlen, diag_count_sum K pairs hK]

/-- Witness for C9: the entry `[0][1]` of the 2×2 matrix on the
scenario's pairs, extracted through the theorem, equals 1. -/
theorem reporting_confusion_and_accuracy_witness :
    ((confusion_matrix 2 [(0,0),(0,1),(1,1),(1,1)]).get? 0).bind
      (fun row => row.get? 1) = some 1 :=
  (((reporting_confusion_and_accuracy.1 2 [(0,0),(0,1),(1,1),(1,1)]).2.2 0 1
    (by decide) (by decide)).trans (by decide))

end Malaria
